import Mathlib

/-!
Verification of the `cloud-autopkg-runner` core against its specification.

The Python sources under `src/cloud_autopkg_runner/` are embedded shallowly:
pure computations become Lean functions, the effect of a subprocess is an
explicit `ProcessOutcome` value, the filesystem and the JSON cache file are
explicit state values, and raised exceptions become `Except` errors.
-/

namespace CloudAutopkgRunner

/-- Association-list lookup keyed by strings, written with decidable equality.
Models a Python `dict` read (`d[k]` / `d.get(k)`): the first binding wins;
every dictionary the program builds has unique keys. -/
def alookup {α : Type} : List (String × α) → String → Option α
  | [], _ => none
  | (k2, v) :: rest, k => if k2 = k then some v else alookup rest k

/-- Python `dict` assignment `d[k] = v`: replace the value in place when the
key is present (keeping its position), append otherwise. -/
def pySetKey {α : Type} (d : List (String × α)) (k : String) (v : α) :
    List (String × α) :=
  if (alookup d k).isSome then
    d.map (fun kv => if kv.1 = k then (k, v) else kv)
  else
    d ++ [(k, v)]

/-- `true` when no key occurs twice, the invariant every `dict` enjoys. -/
def keysNodup {α : Type} : List (String × α) → Bool
  | [] => true
  | (k, _) :: rest => (alookup rest k).isNone && keysNodup rest

/-- The single exception class of `exceptions.py` (`AutoPkgRunnerException`);
the specification's error taxonomy calls its process-failure role
`CommandError`.  It carries the formatted message it was raised with. -/
structure AutoPkgRunnerException where
  message : String
  deriving DecidableEq, Repr

/-- The observable behaviour of one attempted subprocess, the input that
`shell.run_cmd` branches on: the spawn may fail (`FileNotFoundError`,
`OSError`, or an unclassified exception), the wait may hit the configured
timeout (`asyncio.TimeoutError`, with a flag telling whether the process had
already exited when the kill was attempted), or the process exits with a
return code and output. -/
inductive ProcessOutcome where
  | fileNotFound
  | osError (msg : String)
  | unexpectedError (msg : String)
  | timedOut (alreadyExited : Bool)
  | exited (rc : Int) (stdoutText stderrText : String)
  deriving DecidableEq, Repr

/-- `run_cmd` of shell.py ( lines 16-145), for an already-tokenized command
list (the `shlex.split` branch for string commands is not exercised by any
caller in the repository).  The subprocess's behaviour is supplied as a
`ProcessOutcome`.  Raised `AutoPkgRunnerException`s become `Except.error`;
a normal return is the `(returncode, stdout, stderr)` triple.  Notes kept
from the source: `returncode` is initialized to `-1`; on timeout the kill
attempt swallows `ProcessLookupError` (the `alreadyExited` race) and the
function returns `(-1, "", message)` before the `check` test is reached; when
`capture_output` is false both output strings are returned empty. -/
def runCmd (cmd : List String) (check capture_output : Bool)
    (timeout : Option Nat) (outcome : ProcessOutcome) :
    Except AutoPkgRunnerException (Int × String × String) :=
  let cmd_str := String.intercalate " " cmd
  let cmd_head := cmd.headD ""
  match outcome with
  | .fileNotFound =>
      .error ⟨s!"Command not found: {cmd_head}"⟩
  | .osError msg =>
      .error ⟨s!"OS error running command: {cmd_str}. Error: {msg}"⟩
  | .unexpectedError msg =>
      .error ⟨s!"Unexpected error running command: {cmd_str}. Error: {msg}"⟩
  | .timedOut _alreadyExited =>
      let m := match timeout with
        | some t => s!"Command timed out after {t} seconds."
        | none => "Command timed out after None seconds."
      .ok (-1, "", m)
  | .exited rc out err =>
      let stdoutText := if capture_output then out else ""
      let stderrText := if capture_output then err else ""
      if check && rc != 0 then
        .error ⟨s!"Command failed with exit code {rc}: {cmd_str}"⟩
      else
        .ok (rc, stdoutText, stderrText)

/-- Substring test used to state what an error message does (not) mention:
`containsSub sub s` is `true` when `sub` occurs contiguously in `s`. -/
def containsSub (sub s : String) : Bool :=
  s.data.tails.any (fun t => sub.data.isPrefixOf t)

/-- A JSON document, at the level of abstract syntax.  `json.dumps` /
`json.loads` are modelled as the identity on this tree: for the documents the
program writes (strings, non-negative integers, arrays, objects) the textual
round trip is faithful, so only the tree matters. -/
inductive Json where
  | null
  | bool (b : Bool)
  | str (s : String)
  | num (n : Int)
  | arr (elems : List Json)
  | obj (entries : List (String × Json))
  deriving Repr

/-- `DownloadMetadata` (metadata_cache.py lines 24-37): a `TypedDict` with
`total=False`, so each field may be absent.  `file_size` is a `Nat` because it
is produced by `stat().st_size`, which is non-negative. -/
structure DownloadMetadata where
  etag : Option String
  file_path : Option String
  file_size : Option Nat
  last_modified : Option String
  deriving DecidableEq, Repr

/-- `RecipeCache` (metadata_cache.py lines 40-50). -/
structure RecipeCache where
  timestamp : String
  metadata : List DownloadMetadata
  deriving DecidableEq, Repr

/-- A field that is present serializes to a one-entry object fragment,
an absent field to nothing. -/
def optField (k : String) (v : Option Json) : List (String × Json) :=
  match v with
  | none => []
  | some j => [(k, j)]

/-- How `json.dumps(..., sort_keys=True)` renders one `DownloadMetadata`
dict: an object holding exactly the present fields.  The four key names are
already in sorted order. -/
def encodeDM (m : DownloadMetadata) : Json :=
  .obj (optField "etag" (m.etag.map .str) ++
    optField "file_path" (m.file_path.map .str) ++
    optField "file_size" (m.file_size.map (fun n => .num (Int.ofNat n))) ++
    optField "last_modified" (m.last_modified.map .str))

/-- How `json.dumps(..., sort_keys=True)` renders one `RecipeCache` dict
(`"metadata"` sorts before `"timestamp"`). -/
def encodeRecipeCache (c : RecipeCache) : Json :=
  .obj [("metadata", .arr (c.metadata.map encodeDM)),
    ("timestamp", .str c.timestamp)]

def asStr : Json → Option String
  | .str s => some s
  | _ => none

def asNat : Json → Option Nat
  | .num n => some n.toNat
  | _ => none

def asArr : Json → Option (List Json)
  | .arr l => some l
  | _ => none

/-- Reading a stored `DownloadMetadata` object back field by field; inverse
of `encodeDM`, used to state that a reload is field-identical. -/
def decodeDM : Json → Option DownloadMetadata
  | .obj d => some
      { etag := (alookup d "etag").bind asStr,
        file_path := (alookup d "file_path").bind asStr,
        file_size := (alookup d "file_size").bind asNat,
        last_modified := (alookup d "last_modified").bind asStr }
  | _ => none

def decodeDMList : List Json → Option (List DownloadMetadata)
  | [] => some []
  | j :: rest => do
      let m ← decodeDM j
      let ms ← decodeDMList rest
      pure (m :: ms)

/-- Reading a stored `RecipeCache` object back; inverse of
`encodeRecipeCache`. -/
def decodeRecipeCache (j : Json) : Option RecipeCache :=
  match j with
  | .obj d => do
      let mj ← alookup d "metadata"
      let elems ← asArr mj
      let mds ← decodeDMList elems
      let ts ← (alookup d "timestamp").bind asStr
      pure { timestamp := ts, metadata := mds }
  | _ => none

/-- The backing cache file on disk: absent, textually unparseable, or a
parsed JSON document. -/
inductive CacheFileState where
  | absent
  | invalid
  | holds (doc : Json)
  deriving Repr

/-- Errors out of `load_metadata_cache`: the `AutoPkgRunnerException` raised
on `json.JSONDecodeError`, or the (uncaught) `TypeError` that
`dict(json.loads(...))` raises when the top level is not an object. -/
inductive LoadError where
  | invalidContents (msg : String)
  | typeErrorNotObject
  deriving DecidableEq, Repr

/-- Python's `dict(pairs)` / the dict a JSON object parses to: successive
assignment of each pair in order, so a duplicated key keeps its first
position but its last value. -/
def dictOf (l : List (String × Json)) : List (String × Json) :=
  l.foldl (fun d kv => pySetKey d kv.1 kv.2) []

/-- `load_metadata_cache` (metadata_cache.py lines 165-194).  A missing file
is first created holding `"{}"`; unparseable contents raise
`AutoPkgRunnerException`; a parsed document is converted with `dict(...)`,
which fails on a non-object.  Returns the file state after the call together
with the loaded mapping. -/
def load_metadata_cache (file_path : String) (st : CacheFileState) :
    Except LoadError (CacheFileState × List (String × Json)) :=
  match st with
  | .absent => .ok (.holds (.obj []), [])
  | .invalid => .error (.invalidContents s!"Invalid file contents in {file_path}")
  | .holds (.obj entries) => .ok (.holds (.obj entries), dictOf entries)
  | .holds _ => .error .typeErrorNotObject

/-- Insertion of one key-value pair into a key-sorted entry list. -/
def insertSorted (kv : String × Json) : List (String × Json) → List (String × Json)
  | [] => [kv]
  | x :: xs => if kv.1 ≤ x.1 then kv :: x :: xs else x :: insertSorted kv xs

/-- The key order `json.dumps(..., sort_keys=True)` writes the top-level
object in. -/
def sortEntries (l : List (String × Json)) : List (String × Json) :=
  l.foldr insertSorted []

/-- `save_metadata_cache` (metadata_cache.py lines 197-212): read the whole
cache, copy it, assign the entry for `recipe_name` (serialized through
`encodeRecipeCache`, matching what `json.dumps` writes for the Python dict),
and rewrite the full document with sorted keys.  The result is the new file
state; an exception from the embedded load propagates. -/
def save_metadata_cache (file_path : String) (st : CacheFileState)
    (recipe_name : String) (metadata : RecipeCache) :
    Except LoadError CacheFileState := do
  let (_, stored_metadata) ← load_metadata_cache file_path st
  let new_metadata := pySetKey stored_metadata recipe_name (encodeRecipeCache metadata)
  pure (.holds (.obj (sortEntries new_metadata)))

/-- One file on disk, as far as the program observes it: its logical length
(`stat().st_size`) and its extended attributes. -/
structure FSFile where
  size : Nat
  xattrs : List (String × String)
  deriving DecidableEq, Repr

/-- The filesystem: a finite map from absolute path to file. -/
abbrev FileSystem := List (String × FSFile)

/-- Exceptions raised by filesystem and dictionary primitives the program
leaves uncaught. -/
inductive PyError where
  | keyError (k : String)
  | noSuchFile (path : String)
  | noAttr (path attr : String)
  deriving DecidableEq, Repr

/-- `get_file_metadata` (metadata_cache.py lines 147-162): `xattr.getxattr`
decoded to a string; raises `OSError` when the file or the attribute is
missing. -/
def get_file_metadata (fs : FileSystem) (file_path attr : String) :
    Except PyError String :=
  match alookup fs file_path with
  | none => .error (.noSuchFile file_path)
  | some f =>
      match alookup f.xattrs attr with
      | none => .error (.noAttr file_path attr)
      | some v => .ok v

/-- `stat().st_size` of an existing file. -/
def statSize (fs : FileSystem) (file_path : String) : Except PyError Nat :=
  match alookup fs file_path with
  | none => .error (.noSuchFile file_path)
  | some f => .ok f.size

/-- The body of the inner loop of `create_dummy_files` (metadata_cache.py
lines 101-141) for one `DownloadMetadata` record.  Python truthiness of
`metadata_cache.get(...)` makes an absent OR empty `file_path`, an absent or
zero `file_size`, and an absent or empty `etag`/`last_modified` all falsy.
An existing file is never touched.  Otherwise the file is created (`touch`
plus `_set_file_size`, metadata_cache.py lines 61-75, whose
seek-to-`size - 1`-and-write-one-byte gives logical length exactly
`file_size`; content is not modelled) and the truthy attributes are set. -/
def createDummyFile (fs : FileSystem) (md : DownloadMetadata) : FileSystem :=
  if md.file_path.getD "" = "" then fs
  else if md.file_size.getD 0 = 0 then fs
  else
    let file_path := md.file_path.getD ""
    if (alookup fs file_path).isSome then fs
    else
      let xattrs1 :=
        if md.etag.getD "" ≠ "" then
          [("com.github.autopkg.etag", md.etag.getD "")]
        else []
      let xattrs2 :=
        if md.last_modified.getD "" ≠ "" then
          xattrs1 ++ [("com.github.autopkg.last-modified", md.last_modified.getD "")]
        else xattrs1
      pySetKey fs file_path { size := md.file_size.getD 0, xattrs := xattrs2 }

/-- `create_dummy_files` (metadata_cache.py lines 78-144): for every cache
entry whose recipe name is in `recipe_list`, replay each of its
`DownloadMetadata` records onto the filesystem. -/
def create_dummy_files (recipe_list : List String)
    (cache : List (String × RecipeCache)) (fs : FileSystem) : FileSystem :=
  cache.foldl
    (fun fs0 entry =>
      if entry.1 ∉ recipe_list then fs0
      else entry.2.metadata.foldl createDummyFile fs0)
    fs

/-- The three member names of `TrustInfoVerificationState` (recipe.py lines
495-509), as written in the source: `UNTESTED = auto()`, `FAILED = False`,
`TRUSTED = True`. -/
inductive TrustName where
  | UNTESTED
  | FAILED
  | TRUSTED
  deriving DecidableEq, Repr

/-- The integer each member's value compares as in Python: `auto()` yields
`1`; `int(False) = 0`; `int(True) = 1`.  Because `True == 1`, Python's `Enum`
makes `TRUSTED` an alias of the earlier member `UNTESTED` (members with equal
values collapse to the first), so member equality and the truthiness of
`.value` are both determined by this integer. -/
def memberValue : TrustName → Int
  | .UNTESTED => 1
  | .FAILED => 0
  | .TRUSTED => 1

/-- Python `==` on `TrustInfoVerificationState` members: identity of the
canonical member, i.e. equality of `memberValue`. -/
def trustEq (a b : TrustName) : Bool := memberValue a == memberValue b

/-- A consolidated-report item: a Python dict with string values (e.g. the
`download_path` key of a downloaded item). -/
abbrev ReportItem := List (String × String)

/-- Modelled from the spec: `recipe_report.py` (the `ConsolidatedReport` and
`RecipeReport` classes imported by recipe.py line 31) is not under `src/`.
The spec describes the consolidated report as "a structured summary derived
from the external tool's raw report artifact, exposing at least the
downloaded-items list", each item "optionally carrying a download path", and
recipe.py's docstring lists failed items, downloaded items, package builds,
and Munki imports as its contents. -/
structure ConsolidatedReport where
  failed_items : List ReportItem
  downloaded_items : List ReportItem
  pkg_built : List ReportItem
  munki_imported : List ReportItem
  deriving DecidableEq, Repr

/-- `Recipe._extract_download_paths` (recipe.py lines 232-255): an early
`[]` for an empty list, otherwise the comprehension
`[item["download_path"] for item in download_items]`, whose subscript raises
`KeyError` on the first item lacking the key. -/
def extractLoop : List ReportItem → Except PyError (List String)
  | [] => .ok []
  | item :: rest =>
      match alookup item "download_path" with
      | none => .error (.keyError "download_path")
      | some p =>
          match extractLoop rest with
          | .error e => .error e
          | .ok ps => .ok (p :: ps)

def extract_download_paths (download_items : List ReportItem) :
    Except PyError (List String) :=
  if download_items.isEmpty then .ok []
  else extractLoop download_items

/-- `Recipe._get_metadata` (recipe.py lines 310-337): the download paths are
extracted first (the comprehension is eager, so a `KeyError` precedes any
filesystem access), then per path the etag attribute, `stat().st_size` and
the last-modified attribute are read, in the evaluation order of the source's
dict literal.  `now` stands for `str(datetime.now())`. -/
def metadataLoop (fs : FileSystem) : List String → Except PyError (List DownloadMetadata)
  | [] => .ok []
  | p :: rest => do
      let etagVal ← get_file_metadata fs p "com.github.autopkg.etag"
      let sz ← statSize fs p
      let lm ← get_file_metadata fs p "com.github.autopkg.last-modified"
      let tail ← metadataLoop fs rest
      pure ({ etag := some etagVal, file_path := some p, file_size := some sz,
              last_modified := some lm : DownloadMetadata } :: tail)

def get_metadata (fs : FileSystem) (now : String)
    (download_items : List ReportItem) : Except PyError RecipeCache := do
  let paths ← extract_download_paths download_items
  let metadata_list ← metadataLoop fs paths
  pure { timestamp := now, metadata := metadata_list }

/-- `AppConfig.verbosity_str` (`__init__.py`): `""` for a level of zero or
below, otherwise `-` followed by that many `v`s. -/
def verbosityStr (level : Int) : String :=
  if level ≤ 0 then "" else "-" ++ String.mk (List.replicate level.toNat 'v')

/-- `Recipe._autopkg_run_cmd` (recipe.py lines 207-230): the standard
invocation, with `AppConfig.verbosity_str(-1)` appended when
`AppConfig.verbosity_int(-1) > 0`, and `--check` appended when requested. -/
def autopkg_run_command (name overrideDir reportPath : String) (verbosity : Int)
    (check : Bool) : List String :=
  let cmd := ["/usr/local/bin/autopkg", "run", name,
    s!"--override-dir={overrideDir}", s!"--report-plist={reportPath}"]
  let cmd := if verbosity - 1 > 0 then cmd ++ [verbosityStr (verbosity - 1)] else cmd
  if check then cmd ++ ["--check"] else cmd

/-- An error escaping `Recipe.run`: an `AutoPkgRunnerException` out of
`run_cmd`, an uncaught filesystem/dict exception out of `_get_metadata`, or
an exception out of the cache load inside `save_metadata_cache`. -/
inductive RunError where
  | cmdError (e : AutoPkgRunnerException)
  | pyError (e : PyError)
  | cacheError (e : LoadError)
  deriving DecidableEq, Repr

/-- The externally observable calls `Recipe.run` makes, in program order:
each `run_cmd` invocation (= one subprocess) and the completed
`save_metadata_cache` call. -/
inductive Event where
  | runCmdCall (cmd : List String)
  | cacheWrite (recipe_name : String) (entry : RecipeCache)
  deriving DecidableEq, Repr

/-- Everything `Recipe.run` reads from its environment: the recipe identity
and configuration, the outcome each of the two subprocesses would have, the
consolidated report each phase's report file compiles to, the filesystem the
metadata is measured on, the clock, and the cache file. -/
structure RunInputs where
  name : String
  overrideDir : String
  reportPath : String
  verbosity : Int
  cacheFilePath : String
  cacheState : CacheFileState
  checkOutcome : ProcessOutcome
  fullOutcome : ProcessOutcome
  checkReport : ConsolidatedReport
  fullReport : ConsolidatedReport
  fs : FileSystem
  now : String

/-- `Recipe.run` (recipe.py lines 364-381) together with
`run_check_phase` (383-406) and `run_full` (408-431), as a function from
`RunInputs` to (result, event trace, final cache file state).  Both phases
call `run_cmd` with `check=False`, so a non-zero tool exit is only logged;
only a raised exception aborts.  When the check report's `downloaded_items`
list is truthy (non-empty), `_get_metadata` and `save_metadata_cache` run
to completion before `run_full`'s `run_cmd` call. -/
def Recipe.run (p : RunInputs) :
    Except RunError ConsolidatedReport × List Event × CacheFileState :=
  let checkCmd := autopkg_run_command p.name p.overrideDir p.reportPath p.verbosity true
  match runCmd checkCmd false true none p.checkOutcome with
  | .error e => (.error (.cmdError e), [.runCmdCall checkCmd], p.cacheState)
  | .ok _ =>
      let output := p.checkReport
      if output.downloaded_items.isEmpty then
        (.ok output, [.runCmdCall checkCmd], p.cacheState)
      else
        match get_metadata p.fs p.now output.downloaded_items with
        | .error e => (.error (.pyError e), [.runCmdCall checkCmd], p.cacheState)
        | .ok metadata =>
            match save_metadata_cache p.cacheFilePath p.cacheState p.name metadata with
            | .error e => (.error (.cacheError e), [.runCmdCall checkCmd], p.cacheState)
            | .ok newState =>
                let fullCmd :=
                  autopkg_run_command p.name p.overrideDir p.reportPath p.verbosity false
                let trace :=
                  [Event.runCmdCall checkCmd, .cacheWrite p.name metadata,
                    .runCmdCall fullCmd]
                match runCmd fullCmd false true none p.fullOutcome with
                | .error e => (.error (.cmdError e), trace, newState)
                | .ok _ => (.ok p.fullReport, trace, newState)

/-- `Recipe.update_trust_info` (recipe.py lines 433-460).  The source calls
`run_cmd(cmd)` leaving `check` at its default `True`, so a raised exception
propagates before the `self._trusted = UNTESTED` reset is reached.  On a
normal return the state is reset and the boolean reflects the exit code.
The result is (new trust state, returned boolean). -/
def Recipe.update_trust_info (name overrideDir : String) (_trusted : TrustName)
    (outcome : ProcessOutcome) :
    Except AutoPkgRunnerException (TrustName × Bool) :=
  let cmd := ["/usr/local/bin/autopkg", "update-trust-info", name,
    s!"--override-dir={overrideDir}"]
  match runCmd cmd true true none outcome with
  | .error e => .error e
  | .ok (rc, _stdout, _stderr) =>
      let trusted' := TrustName.UNTESTED
      if rc = 0 then .ok (trusted', true) else .ok (trusted', false)

/-- `Recipe.verify_trust_info` (recipe.py lines 462-492).  When the stored
member compares equal to `UNTESTED` the tool is invoked (`check=False`) and
the member named by the exit code is stored; otherwise the cached member is
returned untouched.  The result is (new trust state, whether the tool was
invoked, the Python integer of the returned `self._trusted.value`). -/
def Recipe.verify_trust_info (name overrideDir : String) (verbosity : Int)
    (trusted : TrustName) (outcome : ProcessOutcome) :
    Except AutoPkgRunnerException (TrustName × Bool × Int) :=
  if trustEq trusted .UNTESTED then
    let cmd0 := ["/usr/local/bin/autopkg", "verify-trust-info", name,
      s!"--override-dir={overrideDir}"]
    let cmd := if verbosity > 0 then cmd0 ++ [verbosityStr verbosity] else cmd0
    match runCmd cmd false true none outcome with
    | .error e => .error e
    | .ok (rc, _stdout, _stderr) =>
        let trusted' := if rc = 0 then TrustName.TRUSTED else TrustName.FAILED
        .ok (trusted', true, memberValue trusted')
  else
    .ok (trusted, false, memberValue trusted)

/-- The run loop of `process_recipe_list` (`__main__.py` lines 147-149):
`recipe_output[recipe.name] = await recipe.run()` for each recipe in turn,
with no exception handling, so the first raised error propagates and aborts
the remaining iterations.  `runResult` is each recipe's `run()` behaviour. -/
def processLoop (runResult : String → Except RunError ConsolidatedReport)
    (acc : List (String × ConsolidatedReport)) :
    List String → Except RunError (List (String × ConsolidatedReport))
  | [] => .ok acc
  | nm :: rest =>
      match runResult nm with
      | .error e => .error e
      | .ok rep => processLoop runResult (pySetKey acc nm rep) rest

/-- `process_recipe_list` (`__main__.py` lines 117-149): each requested name
is resolved against the override directories in order (the first directory
containing it wins; names found nowhere are silently dropped), then the
resolved recipes are run sequentially by `processLoop`. -/
def process_recipe_list (overrides_paths : List String)
    (recipe_list : List String) (pathExists : String → Bool)
    (runResult : String → Except RunError ConsolidatedReport) :
    Except RunError (List (String × ConsolidatedReport)) :=
  let recipes := recipe_list.filter (fun nm =>
    overrides_paths.any (fun op => pathExists (op ++ "/" ++ nm)))
  processLoop runResult [] recipes

/-! Concrete sample data, used to evaluate the definitions on closed inputs. -/

/-- A consolidated report with nothing in it. -/
def emptyReport : ConsolidatedReport := ⟨[], [], [], []⟩

/-- A check-phase report with one downloaded item carrying a download path. -/
def reportOneDownload : ConsolidatedReport :=
  ⟨[], [[("download_path", "/tmp/x/firefox.pkg")]], [], []⟩

/-- A check-phase report whose single downloaded item lacks `download_path`. -/
def reportNoPath : ConsolidatedReport :=
  ⟨[], [[("pathname", "/tmp/x/firefox.pkg")]], [], []⟩

/-- A filesystem holding the downloaded file with both vendor attributes. -/
def fsOneDownload : FileSystem :=
  [("/tmp/x/firefox.pkg",
    { size := 1024,
      xattrs := [("com.github.autopkg.etag", "abc123"),
        ("com.github.autopkg.last-modified", "Mon, 01 Jan 2024")] })]

/-- The metadata `get_metadata` measures on `fsOneDownload`. -/
def mdOneDownload : RecipeCache :=
  { timestamp := "2024-01-01 00:00:00",
    metadata := [{
      etag := some "abc123", file_path := some "/tmp/x/firefox.pkg",
      file_size := some 1024, last_modified := some "Mon, 01 Jan 2024" }] }

/-- Baseline run inputs: both subprocesses exit 0, empty check report. -/
def inputsBase : RunInputs :=
  { name := "Firefox.pkg.recipe", overrideDir := "/overrides",
    reportPath := "/tmp/report.plist", verbosity := 0,
    cacheFilePath := "metadata_cache.json", cacheState := .absent,
    checkOutcome := .exited 0 "" "", fullOutcome := .exited 0 "" "",
    checkReport := emptyReport, fullReport := emptyReport,
    fs := [], now := "2024-01-01 00:00:00" }

/-- Run inputs whose check phase finds one downloaded item. -/
def inputsOneDownload : RunInputs :=
  { inputsBase with checkReport := reportOneDownload, fs := fsOneDownload }

/-- Run inputs whose check report's downloaded item lacks `download_path`. -/
def inputsNoPath : RunInputs :=
  { inputsBase with checkReport := reportNoPath, fs := fsOneDownload }

/-- A cache entry for recipe `A` (all fields present). -/
def entryA : RecipeCache :=
  { timestamp := "2024-01-01T00:00:00",
    metadata := [{
      etag := some "abc123", file_path := some "/tmp/x/firefox.pkg",
      file_size := some 1024, last_modified := some "Mon, 01 Jan 2024" }] }

/-- A cache entry for recipe `B` (etag absent). -/
def entryB : RecipeCache :=
  { timestamp := "2024-01-02T00:00:00",
    metadata := [{
      etag := none, file_path := some "/tmp/x/chrome.pkg",
      file_size := some 2048, last_modified := some "Tue, 02 Jan 2024" }] }

/-- The cache file after `save_metadata_cache(path, "A", entryA)` against an
absent file. -/
def fileAfterSaveA : CacheFileState :=
  .holds (.obj [("A", encodeRecipeCache entryA)])

/-- The record of the spec's dummy-file scenario: `file_path`, `file_size`
and `etag` present, `last_modified` absent. -/
def firefoxScenarioMd : DownloadMetadata :=
  { etag := some "abc123", file_path := some "/tmp/x/firefox.pkg",
    file_size := some 1024, last_modified := none }

/-- The cache of the spec's dummy-file scenario: one record for
`Firefox.pkg`. -/
def firefoxScenarioCache : List (String × RecipeCache) :=
  [("Firefox.pkg",
    { timestamp := "2024-01-01T00:00:00", metadata := [firefoxScenarioMd] })]

/-- A record whose `etag` is present but empty — falsy for the source's
`metadata_cache.get("etag")` test. -/
def emptyEtagMd : DownloadMetadata :=
  { etag := some "", file_path := some "/tmp/x/a.pkg",
    file_size := some 7, last_modified := none }

/-- A cache holding `emptyEtagMd` under recipe `R`. -/
def emptyEtagCache : List (String × RecipeCache) :=
  [("R", { timestamp := "2024-01-01T00:00:00", metadata := [emptyEtagMd] })]

/-- The message `run_cmd` raises with when `check` is requested and the exit
code is non-zero (shell.py lines 139-141): it reports the exit code and the
command string — the captured stdout and stderr only go to the error log
(shell.py lines 135-138). -/
def commandFailedMessage (rc : Int) (cmd_str : String) : String :=
  s!"Command failed with exit code {rc}: {cmd_str}"

/-! Lemmas about the dictionary primitives. -/

theorem alookup_append {α : Type} (l1 l2 : List (String × α)) (k : String) :
    alookup (l1 ++ l2) k =
      match alookup l1 k with
      | some v => some v
      | none => alookup l2 k := by
  induction l1 with
  | nil => rfl
  | cons x xs ih =>
      obtain ⟨k2, v2⟩ := x
      by_cases h : k2 = k
      · simp [alookup, h]
      · simp [alookup, h, ih]

theorem alookup_append_none_iff {α : Type} (l1 l2 : List (String × α)) (k : String) :
    alookup (l1 ++ l2) k = none ↔ alookup l1 k = none ∧ alookup l2 k = none := by
  rw [alookup_append]
  cases h : alookup l1 k <;> simp

theorem alookup_cons {α : Type} (k2 : String) (v2 : α)
    (xs : List (String × α)) (k : String) :
    alookup ((k2, v2) :: xs) k = if k2 = k then some v2 else alookup xs k := rfl

theorem keysNodup_cons {α : Type} (k2 : String) (v2 : α) (xs : List (String × α)) :
    keysNodup ((k2, v2) :: xs) = ((alookup xs k2).isNone && keysNodup xs) := rfl

theorem alookup_map_replace_of_ne {α : Type} (d : List (String × α))
    (k k' : String) (v : α) (h : k' ≠ k) :
    alookup (d.map (fun kv => if kv.1 = k then (k, v) else kv)) k' = alookup d k' := by
  induction d with
  | nil => rfl
  | cons x xs ih =>
      obtain ⟨k2, v2⟩ := x
      simp only [List.map_cons]
      by_cases h2 : k2 = k
      · have h3 : k2 ≠ k' := by rw [h2]; exact Ne.symm h
        rw [if_pos h2, alookup_cons, alookup_cons, if_neg (Ne.symm h), if_neg h3]
        exact ih
      · rw [if_neg h2, alookup_cons, alookup_cons]
        by_cases h3 : k2 = k'
        · rw [if_pos h3, if_pos h3]
        · rw [if_neg h3, if_neg h3]
          exact ih

theorem alookup_map_replace_self {α : Type} (d : List (String × α))
    (k : String) (v : α) (h : (alookup d k).isSome = true) :
    alookup (d.map (fun kv => if kv.1 = k then (k, v) else kv)) k = some v := by
  induction d with
  | nil => simp [alookup] at h
  | cons x xs ih =>
      obtain ⟨k2, v2⟩ := x
      simp only [List.map_cons]
      by_cases h2 : k2 = k
      · subst h2
        rw [if_pos rfl, alookup_cons, if_pos rfl]
      · rw [alookup_cons, if_neg h2] at h
        rw [if_neg h2, alookup_cons, if_neg h2]
        exact ih h

theorem alookup_map_replace_none {α : Type} (d : List (String × α))
    (k : String) (v : α) (h : alookup d k = none) :
    alookup (d.map (fun kv => if kv.1 = k then (k, v) else kv)) k = none := by
  induction d with
  | nil => rfl
  | cons x xs ih =>
      obtain ⟨k2, v2⟩ := x
      have h2 : k2 ≠ k := by
        intro e
        subst e
        rw [alookup_cons, if_pos rfl] at h
        exact Option.noConfusion h
      rw [alookup_cons, if_neg h2] at h
      simp only [List.map_cons]
      rw [if_neg h2, alookup_cons, if_neg h2]
      exact ih h

theorem alookup_pySetKey_self {α : Type} (d : List (String × α)) (k : String) (v : α) :
    alookup (pySetKey d k v) k = some v := by
  cases hh : alookup d k with
  | some w =>
      simp [pySetKey, hh, alookup_map_replace_self d k v (by simp [hh])]
  | none =>
      have he : pySetKey d k v = d ++ [(k, v)] := by simp [pySetKey, hh]
      rw [he, alookup_append, hh]
      simp [alookup]

theorem alookup_pySetKey_ne {α : Type} (d : List (String × α)) (k : String) (v : α)
    (k' : String) (h : k' ≠ k) :
    alookup (pySetKey d k v) k' = alookup d k' := by
  cases hh : alookup d k with
  | some w =>
      simp [pySetKey, hh, alookup_map_replace_of_ne d k k' v h]
  | none =>
      have he : pySetKey d k v = d ++ [(k, v)] := by simp [pySetKey, hh]
      rw [he, alookup_append]
      cases hk : alookup d k' <;> simp [alookup, Ne.symm h]

theorem keysNodup_append_single {α : Type} (d : List (String × α)) (k : String) (v : α)
    (h : keysNodup d = true) (h0 : alookup d k = none) :
    keysNodup (d ++ [(k, v)]) = true := by
  induction d with
  | nil => simp [keysNodup, alookup]
  | cons x xs ih =>
      obtain ⟨k2, v2⟩ := x
      have h2 : k2 ≠ k := by
        intro e
        subst e
        rw [alookup_cons, if_pos rfl] at h0
        exact Option.noConfusion h0
      rw [alookup_cons, if_neg h2] at h0
      rw [keysNodup_cons, Bool.and_eq_true] at h
      have hap : alookup (xs ++ [(k, v)]) k2 = none := by
        rw [alookup_append_none_iff]
        refine ⟨Option.isNone_iff_eq_none.mp h.1, ?_⟩
        rw [alookup_cons, if_neg (Ne.symm h2)]
        rfl
      rw [List.cons_append, keysNodup_cons, hap]
      simp [ih h.2 h0]

theorem keysNodup_pySetKey {α : Type} (d : List (String × α)) (k : String) (v : α)
    (h : keysNodup d = true) : keysNodup (pySetKey d k v) = true := by
  cases hh : alookup d k with
  | some w =>
      rw [show pySetKey d k v = d.map (fun kv => if kv.1 = k then (k, v) else kv) from by
        simp [pySetKey, hh]]
      clear hh
      induction d with
      | nil => rfl
      | cons x xs ih =>
          obtain ⟨k2, v2⟩ := x
          rw [keysNodup_cons, Bool.and_eq_true] at h
          simp only [List.map_cons]
          by_cases h2 : k2 = k
          · subst h2
            have hn : alookup xs k2 = none := Option.isNone_iff_eq_none.mp h.1
            rw [if_pos rfl, keysNodup_cons, alookup_map_replace_none xs k2 v hn]
            simp [ih h.2]
          · rw [if_neg h2, keysNodup_cons, alookup_map_replace_of_ne xs k k2 v h2]
            simp [ih h.2, Option.isNone_iff_eq_none.mp h.1]
  | none =>
      rw [show pySetKey d k v = d ++ [(k, v)] from by simp [pySetKey, hh]]
      exact keysNodup_append_single d k v h hh

theorem keysNodup_foldl_setKey (l : List (String × Json)) :
    ∀ acc : List (String × Json), keysNodup acc = true →
      keysNodup (l.foldl (fun d kv => pySetKey d kv.1 kv.2) acc) = true := by
  induction l with
  | nil => intro acc h; simpa using h
  | cons x xs ih =>
      intro acc h
      simp only [List.foldl_cons]
      exact ih _ (keysNodup_pySetKey acc x.1 x.2 h)

theorem keysNodup_dictOf (l : List (String × Json)) : keysNodup (dictOf l) = true :=
  keysNodup_foldl_setKey l [] rfl

theorem keysNodup_append_cons {α : Type} (acc : List (String × α)) (kv : String × α)
    (xs : List (String × α)) (h : keysNodup (acc ++ kv :: xs) = true) :
    alookup acc kv.1 = none := by
  induction acc with
  | nil =>
      rfl
  | cons y ys ih =>
      obtain ⟨k2, v2⟩ := y
      rw [List.cons_append, keysNodup_cons, Bool.and_eq_true] at h
      have h1 : alookup (ys ++ kv :: xs) k2 = none := Option.isNone_iff_eq_none.mp h.1
      rw [alookup_append_none_iff] at h1
      have h2 : k2 ≠ kv.1 := by
        intro e
        obtain ⟨k1, v1⟩ := kv
        subst e
        rw [alookup_cons, if_pos rfl] at h1
        exact Option.noConfusion h1.2
      rw [alookup_cons, if_neg h2]
      exact ih h.2

theorem foldl_setKey_eq_append (l : List (String × Json)) :
    ∀ acc : List (String × Json), keysNodup (acc ++ l) = true →
      l.foldl (fun d kv => pySetKey d kv.1 kv.2) acc = acc ++ l := by
  induction l with
  | nil => intro acc _; simp
  | cons x xs ih =>
      intro acc h
      have hk : alookup acc x.1 = none := keysNodup_append_cons acc x xs h
      have hset : pySetKey acc x.1 x.2 = acc ++ [x] := by
        simp [pySetKey, hk]
      simp only [List.foldl_cons, hset]
      have h2 : keysNodup ((acc ++ [x]) ++ xs) = true := by
        rw [List.append_assoc]
        simpa using h
      rw [ih (acc ++ [x]) h2, List.append_assoc]
      simp

theorem dictOf_eq_self (l : List (String × Json)) (h : keysNodup l = true) :
    dictOf l = l := by
  have := foldl_setKey_eq_append l [] (by simpa using h)
  simpa [dictOf] using this

theorem alookup_insertSorted (kv : String × Json) (l : List (String × Json))
    (k : String) (h : alookup l kv.1 = none) :
    alookup (insertSorted kv l) k = alookup (kv :: l) k := by
  obtain ⟨k1, v1⟩ := kv
  induction l with
  | nil => rfl
  | cons x xs ih =>
      obtain ⟨k2, v2⟩ := x
      have h2 : k2 ≠ k1 := by
        intro e
        subst e
        rw [alookup_cons, if_pos rfl] at h
        exact Option.noConfusion h
      rw [alookup_cons, if_neg h2] at h
      show alookup (if k1 ≤ k2 then (k1, v1) :: (k2, v2) :: xs
        else (k2, v2) :: insertSorted (k1, v1) xs) k = _
      by_cases hle : k1 ≤ k2
      · rw [if_pos hle]
      · rw [if_neg hle, alookup_cons, alookup_cons, alookup_cons]
        by_cases h3 : k2 = k
        · rw [if_pos h3, if_neg ?hne, if_pos h3]
          case hne =>
            intro e
            exact h2 (h3.trans e.symm)
        · rw [if_neg h3, ih h, alookup_cons, if_neg h3]

theorem keysNodup_insertSorted (kv : String × Json) (l : List (String × Json))
    (h1 : keysNodup l = true) (h2 : alookup l kv.1 = none) :
    keysNodup (insertSorted kv l) = true := by
  obtain ⟨k1, v1⟩ := kv
  induction l with
  | nil => rfl
  | cons x xs ih =>
      obtain ⟨k2, v2⟩ := x
      rw [keysNodup_cons, Bool.and_eq_true] at h1
      have hne : k2 ≠ k1 := by
        intro e
        subst e
        rw [alookup_cons, if_pos rfl] at h2
        exact Option.noConfusion h2
      rw [alookup_cons, if_neg hne] at h2
      show keysNodup (if k1 ≤ k2 then (k1, v1) :: (k2, v2) :: xs
        else (k2, v2) :: insertSorted (k1, v1) xs) = true
      by_cases hle : k1 ≤ k2
      · rw [if_pos hle, keysNodup_cons, alookup_cons, if_neg hne, h2,
          keysNodup_cons]
        simp [h1.1, h1.2]
      · rw [if_neg hle, keysNodup_cons,
          alookup_insertSorted (k1, v1) xs k2 h2, alookup_cons,
          if_neg (Ne.symm hne), Option.isNone_iff_eq_none.mp h1.1]
        simp [ih h1.2 h2]

theorem alookup_sortEntries (l : List (String × Json)) (h : keysNodup l = true) :
    ∀ k, alookup (sortEntries l) k = alookup l k := by
  induction l with
  | nil => intro k; rfl
  | cons x xs ih =>
      intro k
      rw [keysNodup_cons, Bool.and_eq_true] at h
      have hx : alookup (sortEntries xs) x.1 = none := by
        rw [ih h.2 x.1]
        exact Option.isNone_iff_eq_none.mp h.1
      show alookup (insertSorted x (sortEntries xs)) k = _
      rw [alookup_insertSorted x (sortEntries xs) k hx]
      obtain ⟨k1, v1⟩ := x
      rw [alookup_cons, alookup_cons, ih h.2 k]

theorem keysNodup_sortEntries (l : List (String × Json)) (h : keysNodup l = true) :
    keysNodup (sortEntries l) = true := by
  induction l with
  | nil => rfl
  | cons x xs ih =>
      rw [keysNodup_cons, Bool.and_eq_true] at h
      have hx : alookup (sortEntries xs) x.1 = none := by
        rw [alookup_sortEntries xs h.2 x.1]
        exact Option.isNone_iff_eq_none.mp h.1
      exact keysNodup_insertSorted x (sortEntries xs) (ih h.2) hx

/-! Lemmas about the JSON serialization of cache entries. -/

theorem decodeDM_encodeDM (m : DownloadMetadata) : decodeDM (encodeDM m) = some m := by
  obtain ⟨e, fp, sz, lm⟩ := m
  cases e <;> cases fp <;> cases sz <;> cases lm <;> rfl

theorem decodeDMList_map (l : List DownloadMetadata) :
    decodeDMList (l.map encodeDM) = some l := by
  induction l with
  | nil => rfl
  | cons m ms ih =>
      simp [decodeDMList, decodeDM_encodeDM, ih]

theorem decodeRecipeCache_encode (c : RecipeCache) :
    decodeRecipeCache (encodeRecipeCache c) = some c := by
  obtain ⟨ts, mds⟩ := c
  have h1 : alookup [("metadata", Json.arr (mds.map encodeDM)),
      ("timestamp", Json.str ts)] "metadata" = some (Json.arr (mds.map encodeDM)) := rfl
  have h2 : alookup [("metadata", Json.arr (mds.map encodeDM)),
      ("timestamp", Json.str ts)] "timestamp" = some (Json.str ts) := rfl
  simp [decodeRecipeCache, encodeRecipeCache, h1, h2, asArr, asStr, decodeDMList_map]

theorem load_metadata_cache_nodup (fp : String) (st st1 : CacheFileState)
    (m0 : List (String × Json))
    (h : load_metadata_cache fp st = .ok (st1, m0)) : keysNodup m0 = true := by
  cases st with
  | absent =>
      simp only [load_metadata_cache, Except.ok.injEq, Prod.mk.injEq] at h
      rw [← h.2]
      rfl
  | invalid => simp [load_metadata_cache] at h
  | holds doc =>
      cases doc with
      | obj entries =>
          simp only [load_metadata_cache, Except.ok.injEq, Prod.mk.injEq] at h
          rw [← h.2]
          exact keysNodup_dictOf entries
      | null => simp [load_metadata_cache] at h
      | bool b => simp [load_metadata_cache] at h
      | str s => simp [load_metadata_cache] at h
      | num n => simp [load_metadata_cache] at h
      | arr l => simp [load_metadata_cache] at h

/-! The claims. -/

/-- C3: for every command run with a configured timeout that elapses before
the process exits, `run_cmd` returns exit code -1 with empty stdout and
stderr set to a human-readable timeout message, and never raises on this
path — whatever `check` and `capture_output` were, and whether or not the
process had already exited when the kill was attempted. -/
theorem runCmd_timeout_returns_sentinel (cmd : List String)
    (check capture_output : Bool) (t : Nat) (alreadyExited : Bool) :
    runCmd cmd check capture_output (some t) (.timedOut alreadyExited) =
      .ok (-1, "", s!"Command timed out after {t} seconds.") := rfl

/-- C4, counterexample: at the concrete input `run_cmd(["false"],
check=true)` with the process exiting 1 and producing distinctive stdout and
stderr, the raised CommandError's message reports the exit code and command
but mentions neither the captured stdout nor the captured stderr, so the
error does not summarize stdout and stderr as claimed (those are only
logged). -/
theorem runCmd_check_error_message_counterexample :
    runCmd ["false"] true true none
        (.exited 1 "distinctive stdout" "distinctive stderr") =
      .error ⟨"Command failed with exit code 1: false"⟩ ∧
    containsSub "distinctive stdout" "Command failed with exit code 1: false" = false ∧
    containsSub "distinctive stderr" "Command failed with exit code 1: false" = false := by
  refine ⟨rfl, ?_, ?_⟩ <;> rfl

/-- C4, amended: for every command that exits normally with a non-zero exit
code (not the timeout path), if `check` is true `run_cmd` fails with a
CommandError whose message reports the exit code and the command string
(stdout and stderr are written to the error log, not carried in the error);
if `check` is false it returns `(real exit code, captured stdout, captured
stderr)` without raising. -/
theorem runCmd_nonzero_exit_check (cmd : List String) (rc : Int)
    (out err : String) (h : rc ≠ 0) :
    runCmd cmd true true none (.exited rc out err) =
      .error ⟨commandFailedMessage rc (String.intercalate " " cmd)⟩ ∧
    runCmd cmd false true none (.exited rc out err) = .ok (rc, out, err) := by
  constructor
  · simp [runCmd, h, commandFailedMessage]
  · simp [runCmd]

/-- C4, witness: the amended theorem applied at `run_cmd(["false"], ...)`
with exit code 1 and empty output. -/
theorem runCmd_nonzero_exit_check_witness :
    (1 : Int) ≠ 0 ∧
    (runCmd ["false"] true true none (.exited 1 "" "") =
        .error ⟨commandFailedMessage 1 (String.intercalate " " ["false"])⟩ ∧
      runCmd ["false"] false true none (.exited 1 "" "") = .ok (1, "", "")) :=
  ⟨by decide, runCmd_nonzero_exit_check ["false"] 1 "" "" (by decide)⟩

/-- C5: the code evaluated at the failing input.  Because `TRUSTED = True`
aliases `UNTESTED = auto() = 1` in the Python `Enum` (`True == 1`), the
member stored after a successful verification still compares equal to
`UNTESTED`: a second `verify_trust_info` call re-invokes the external tool
instead of returning the cached state, while the `FAILED` outcome is
memoized as documented. -/
theorem verify_trust_info_alias_code_bug :
    trustEq TrustName.TRUSTED TrustName.UNTESTED = true ∧
    Recipe.verify_trust_info "Firefox.pkg.recipe" "/overrides" 0
        TrustName.UNTESTED (.exited 0 "" "") = .ok (TrustName.TRUSTED, true, 1) ∧
    Recipe.verify_trust_info "Firefox.pkg.recipe" "/overrides" 0
        TrustName.TRUSTED (.exited 0 "" "") = .ok (TrustName.TRUSTED, true, 1) ∧
    Recipe.verify_trust_info "Firefox.pkg.recipe" "/overrides" 0
        TrustName.FAILED (.exited 0 "" "") = .ok (TrustName.FAILED, false, 0) :=
  ⟨rfl, rfl, rfl, rfl⟩

/-- C6: the code evaluated at the failing input.  `update_trust_info` calls
`run_cmd(cmd)` with `check` left at its default `True`, so when the update
subcommand exits non-zero the call raises a CommandError instead of
returning `False`, and the reset of the trust state never executes; only on
exit code 0 does it reset the state to `UNTESTED` and return `True`. -/
theorem update_trust_info_check_default_code_bug :
    Recipe.update_trust_info "Firefox.pkg.recipe" "/overrides"
        TrustName.TRUSTED (.exited 1 "" "") =
      .error ⟨"Command failed with exit code 1: /usr/local/bin/autopkg update-trust-info Firefox.pkg.recipe --override-dir=/overrides"⟩ ∧
    Recipe.update_trust_info "Firefox.pkg.recipe" "/overrides"
        TrustName.TRUSTED (.exited 0 "" "") = .ok (TrustName.UNTESTED, true) :=
  ⟨rfl, rfl⟩

/-- C7: the code evaluated at the failing input.  `process_recipe_list`
wraps `await recipe.run()` in no exception handler: when the first recipe's
run raises an infrastructure-level CommandError the whole batch aborts with
that error — the sibling recipe is never processed and no per-recipe outcome
is collected — whereas with no failure every recipe's outcome is
collected. -/
theorem process_recipe_list_abort_code_bug :
    process_recipe_list ["/overrides"] ["A.recipe", "B.recipe"] (fun _ => true)
        (fun nm =>
          if nm = "A.recipe" then
            .error (.cmdError ⟨"Command not found: /usr/local/bin/autopkg"⟩)
          else .ok emptyReport) =
      .error (.cmdError ⟨"Command not found: /usr/local/bin/autopkg"⟩) ∧
    process_recipe_list ["/overrides"] ["A.recipe", "B.recipe"] (fun _ => true)
        (fun _ => .ok emptyReport) =
      .ok [("A.recipe", emptyReport), ("B.recipe", emptyReport)] :=
  ⟨rfl, rfl⟩

/-- C1: for every recipe whose check phase completes and whose check-phase
consolidated report has an empty downloaded-items list, `run()` makes
exactly one subprocess invocation — the check-phase command — so the
full-run subprocess is never invoked, and it returns exactly the
check-phase report (with the cache file untouched). -/
theorem run_skips_full_when_no_downloads (p : RunInputs)
    (hck : ∃ v, runCmd (autopkg_run_command p.name p.overrideDir p.reportPath
      p.verbosity true) false true none p.checkOutcome = .ok v)
    (hempty : p.checkReport.downloaded_items = []) :
    Recipe.run p = (.ok p.checkReport,
      [.runCmdCall (autopkg_run_command p.name p.overrideDir p.reportPath
        p.verbosity true)],
      p.cacheState) := by
  obtain ⟨v, hv⟩ := hck
  simp [Recipe.run, hv, hempty]

/-- C1, witness: the theorem applied to concrete inputs whose check phase
exits 0 with an empty report. -/
theorem run_skips_full_when_no_downloads_witness :
    Recipe.run inputsBase = (.ok emptyReport,
      [.runCmdCall ["/usr/local/bin/autopkg", "run", "Firefox.pkg.recipe",
        "--override-dir=/overrides", "--report-plist=/tmp/report.plist",
        "--check"]],
      .absent) :=
  run_skips_full_when_no_downloads inputsBase ⟨(0, "", ""), rfl⟩ rfl

/-- C2: for every recipe whose check phase completes with a non-empty
downloaded-items list, whose metadata assembly succeeds and whose cache
write succeeds, the event trace of `run()` is exactly check-phase
invocation, then the completed cache write of the assembled entry under the
recipe's name, then the full-run invocation — so the full run is never
started before the cache write completes, whatever the full run's outcome
is. -/
theorem run_writes_cache_before_full (p : RunInputs)
    (hck : ∃ v, runCmd (autopkg_run_command p.name p.overrideDir p.reportPath
      p.verbosity true) false true none p.checkOutcome = .ok v)
    (hne : p.checkReport.downloaded_items ≠ [])
    (md : RecipeCache)
    (hmd : get_metadata p.fs p.now p.checkReport.downloaded_items = .ok md)
    (st : CacheFileState)
    (hsave : save_metadata_cache p.cacheFilePath p.cacheState p.name md = .ok st) :
    (Recipe.run p).2.1 =
      [.runCmdCall (autopkg_run_command p.name p.overrideDir p.reportPath
        p.verbosity true),
       .cacheWrite p.name md,
       .runCmdCall (autopkg_run_command p.name p.overrideDir p.reportPath
        p.verbosity false)] := by
  obtain ⟨v, hv⟩ := hck
  have hemp : p.checkReport.downloaded_items.isEmpty = false := by
    cases h : p.checkReport.downloaded_items with
    | nil => exact absurd h hne
    | cons a as => rfl
  simp only [Recipe.run, hv, hemp, hmd, hsave, Bool.false_eq_true, if_false]
  cases runCmd (autopkg_run_command p.name p.overrideDir p.reportPath
    p.verbosity false) false true none p.fullOutcome <;> rfl

/-- C2, witness: the theorem applied to concrete inputs with one downloaded
item whose file carries both vendor attributes. -/
theorem run_writes_cache_before_full_witness :
    (Recipe.run inputsOneDownload).2.1 =
      [.runCmdCall ["/usr/local/bin/autopkg", "run", "Firefox.pkg.recipe",
        "--override-dir=/overrides", "--report-plist=/tmp/report.plist",
        "--check"],
       .cacheWrite "Firefox.pkg.recipe" mdOneDownload,
       .runCmdCall ["/usr/local/bin/autopkg", "run", "Firefox.pkg.recipe",
        "--override-dir=/overrides", "--report-plist=/tmp/report.plist"]] :=
  run_writes_cache_before_full inputsOneDownload ⟨(0, "", ""), rfl⟩
    (by decide) mdOneDownload rfl
    (.holds (.obj [("Firefox.pkg.recipe", encodeRecipeCache mdOneDownload)])) rfl

/-- Success of the download-path extraction loop is equivalent to every item
carrying the `download_path` key. -/
theorem extractLoop_ok_iff (l : List ReportItem) :
    (∃ ps, extractLoop l = .ok ps) ↔
      ∀ item ∈ l, (alookup item "download_path").isSome = true := by
  induction l with
  | nil => simp [extractLoop]
  | cons item rest ih =>
      cases h : alookup item "download_path" with
      | none =>
          simp [extractLoop, h]
      | some pth =>
          cases h2 : extractLoop rest with
          | error e =>
              have hr : ¬∀ it ∈ rest, (alookup it "download_path").isSome = true := by
                intro hall
                obtain ⟨ps, hps⟩ := ih.mpr hall
                rw [hps] at h2
                exact Except.noConfusion h2
              simp [extractLoop, h, h2, hr]
          | ok ps =>
              have hr : ∀ it ∈ rest, (alookup it "download_path").isSome = true :=
                ih.mp ⟨ps, h2⟩
              simp only [extractLoop, h, h2]
              constructor
              · intro _ it hit
                rcases List.mem_cons.mp hit with he | hrr
                · subst he
                  rw [h]
                  rfl
                · exact hr it hrr
              · intro _
                exact ⟨pth :: ps, rfl⟩

/-- If some item lacks `download_path`, the extraction loop raises
`KeyError("download_path")`. -/
theorem extractLoop_err_of_miss (l : List ReportItem)
    (h : ∃ item ∈ l, alookup item "download_path" = none) :
    extractLoop l = .error (.keyError "download_path") := by
  induction l with
  | nil => simp at h
  | cons item rest ih =>
      obtain ⟨it, hin, hnone⟩ := h
      rcases List.mem_cons.mp hin with he | hr
      · subst he
        cases h0 : alookup it "download_path" with
        | none => simp [extractLoop, h0]
        | some pth => rw [h0] at hnone; exact Option.noConfusion hnone
      · cases h0 : alookup item "download_path" with
        | none => simp [extractLoop, h0]
        | some pth => simp [extractLoop, h0, ih ⟨it, hr, hnone⟩]

/-- C10: metadata extraction after the check phase requires every downloaded
item to carry a download path.  If any item of the check report's
downloaded-items list lacks the `download_path` key, `Recipe.run` fails with
the uncaught `KeyError` (no item is skipped, no default substituted); and in
general the extraction succeeds exactly when every downloaded item contains
a `download_path` value. -/
theorem extract_requires_download_path (p : RunInputs)
    (hck : ∃ v, runCmd (autopkg_run_command p.name p.overrideDir p.reportPath
      p.verbosity true) false true none p.checkOutcome = .ok v)
    (hmiss : ∃ item ∈ p.checkReport.downloaded_items,
      alookup item "download_path" = none) :
    (Recipe.run p).1 = .error (.pyError (.keyError "download_path")) ∧
    ∀ l : List ReportItem,
      (∃ ps, extract_download_paths l = .ok ps) ↔
        ∀ item ∈ l, (alookup item "download_path").isSome = true := by
  constructor
  · obtain ⟨v, hv⟩ := hck
    have hne : p.checkReport.downloaded_items ≠ [] := by
      obtain ⟨it, hin, _⟩ := hmiss
      intro e
      rw [e] at hin
      simp at hin
    have hemp : p.checkReport.downloaded_items.isEmpty = false := by
      cases h : p.checkReport.downloaded_items with
      | nil => exact absurd h hne
      | cons a as => rfl
    have herr : extract_download_paths p.checkReport.downloaded_items =
        .error (.keyError "download_path") := by
      rw [extract_download_paths, hemp]
      simp [extractLoop_err_of_miss _ hmiss]
    have hget : get_metadata p.fs p.now p.checkReport.downloaded_items =
        .error (.keyError "download_path") := by
      simp only [get_metadata, herr]
      rfl
    simp [Recipe.run, hv, hemp, hget]
  · intro l
    cases h : l.isEmpty with
    | true =>
        have : l = [] := by
          cases l with
          | nil => rfl
          | cons a as => exact Bool.noConfusion h
        subst this
        simp [extract_download_paths]
    | false =>
        rw [show extract_download_paths l = extractLoop l from by
          rw [extract_download_paths, h]; rfl]
        exact extractLoop_ok_iff l

/-- C10, witness: the theorem applied to concrete inputs whose single
downloaded item lacks `download_path`. -/
theorem extract_requires_download_path_witness :
    (Recipe.run inputsNoPath).1 = .error (.pyError (.keyError "download_path")) :=
  (extract_requires_download_path inputsNoPath ⟨(0, "", ""), rfl⟩
    ⟨[("pathname", "/tmp/x/firefox.pkg")], by decide, rfl⟩).1

/-- C8: save followed by load is a pointwise map update.  For every backing
file state that loads successfully, every recipe name and every entry,
`save_metadata_cache` succeeds, loading the written file succeeds, the
stored object for that name is exactly the entry's serialization — so
reading it back field by field returns an entry field-identical to the one
saved (timestamp and every present DownloadMetadata field) — and the stored
object for every other recipe name is unchanged.  Saving for recipe A and
then recipe B sequentially therefore leaves both entries present. -/
theorem save_then_load_pointwise (fp : String) (st st1 : CacheFileState)
    (m0 : List (String × Json)) (name : String) (e : RecipeCache)
    (hload : load_metadata_cache fp st = .ok (st1, m0)) :
    ∃ st2, save_metadata_cache fp st name e = .ok st2 ∧
      ∃ m1, load_metadata_cache fp st2 = .ok (st2, m1) ∧
        alookup m1 name = some (encodeRecipeCache e) ∧
        (alookup m1 name).bind decodeRecipeCache = some e ∧
        ∀ k, k ≠ name → alookup m1 k = alookup m0 k := by
  have hnod : keysNodup m0 = true := load_metadata_cache_nodup fp st st1 m0 hload
  have hnodNew : keysNodup (pySetKey m0 name (encodeRecipeCache e)) = true :=
    keysNodup_pySetKey m0 name _ hnod
  have hnodSorted :
      keysNodup (sortEntries (pySetKey m0 name (encodeRecipeCache e))) = true :=
    keysNodup_sortEntries _ hnodNew
  have hsave : save_metadata_cache fp st name e =
      .ok (.holds (.obj (sortEntries (pySetKey m0 name (encodeRecipeCache e))))) := by
    simp only [save_metadata_cache, hload]
    rfl
  refine ⟨_, hsave, ?_⟩
  have hload2 : load_metadata_cache fp
      (.holds (.obj (sortEntries (pySetKey m0 name (encodeRecipeCache e))))) =
      .ok (.holds (.obj (sortEntries (pySetKey m0 name (encodeRecipeCache e)))),
        dictOf (sortEntries (pySetKey m0 name (encodeRecipeCache e)))) := rfl
  rw [dictOf_eq_self _ hnodSorted] at hload2
  refine ⟨_, hload2, ?_, ?_, ?_⟩
  · rw [alookup_sortEntries _ hnodNew name, alookup_pySetKey_self]
  · rw [alookup_sortEntries _ hnodNew name, alookup_pySetKey_self,
      Option.some_bind, decodeRecipeCache_encode]
  · intro k hk
    rw [alookup_sortEntries _ hnodNew k, alookup_pySetKey_ne m0 name _ k hk]

/-- C8, witness: the theorem applied against the file state produced by a
previous save for recipe `A`, saving recipe `B`: both entries end up
present, with B's entry decoding field-identically. -/
theorem save_then_load_pointwise_witness :
    ∃ st2, save_metadata_cache "metadata_cache.json" fileAfterSaveA "B" entryB =
        .ok st2 ∧
      ∃ m1, load_metadata_cache "metadata_cache.json" st2 = .ok (st2, m1) ∧
        alookup m1 "B" = some (encodeRecipeCache entryB) ∧
        (alookup m1 "B").bind decodeRecipeCache = some entryB ∧
        ∀ k, k ≠ "B" →
          alookup m1 k = alookup [("A", encodeRecipeCache entryA)] k :=
  save_then_load_pointwise "metadata_cache.json" fileAfterSaveA fileAfterSaveA
    [("A", encodeRecipeCache entryA)] "B" entryB rfl

/-- C9, counterexample: a record whose `etag` key is present but holds the
empty string.  The dummy file is synthesized with the recorded length, but
no etag extended attribute is set — the source tests Python truthiness of
`metadata_cache.get("etag")`, not presence — refuting "the etag/last_modified
extended attributes are set when present in the record". -/
theorem create_dummy_files_empty_etag_counterexample :
    emptyEtagMd.etag = some "" ∧
    create_dummy_files ["R"] emptyEtagCache [] =
      [("/tmp/x/a.pkg", { size := 7, xattrs := [] })] :=
  ⟨rfl, rfl⟩

/-- C9, amended: synthesizing for the spec's scenario cache (recipe set
`Firefox.pkg`, record `/tmp/x/firefox.pkg` of size 1024 with etag `abc123`,
file absent) creates exactly that file with logical length 1024 and the etag
attribute `abc123`; and in general a record replayed onto an absent path
with a present non-empty `file_path` and a present non-zero `file_size`
yields a file whose logical length equals `file_size` (only the final byte
is guaranteed written), with the `etag` and `last_modified` extended
attributes set whenever they are present *and non-empty* in the record. -/
theorem create_dummy_files_synthesis (fs : FileSystem) (md : DownloadMetadata)
    (fp : String) (n : Nat) (hfp : md.file_path = some fp) (hfp0 : fp ≠ "")
    (hsz : md.file_size = some n) (hn : n ≠ 0) (habs : alookup fs fp = none) :
    (∃ f, alookup (createDummyFile fs md) fp = some f ∧ f.size = n ∧
      (∀ e, md.etag = some e → e ≠ "" →
        alookup f.xattrs "com.github.autopkg.etag" = some e) ∧
      (∀ lm, md.last_modified = some lm → lm ≠ "" →
        alookup f.xattrs "com.github.autopkg.last-modified" = some lm)) ∧
    create_dummy_files ["Firefox.pkg"] firefoxScenarioCache [] =
      [("/tmp/x/firefox.pkg",
        { size := 1024, xattrs := [("com.github.autopkg.etag", "abc123")] })] := by
  constructor
  · have h1 : md.file_path.getD "" = fp := by rw [hfp]; rfl
    have h2 : md.file_size.getD 0 = n := by rw [hsz]; rfl
    rw [createDummyFile, h1, h2, if_neg hfp0, if_neg hn]
    simp only [habs, Option.isSome_none, Bool.false_eq_true, if_false]
    refine ⟨_, alookup_pySetKey_self fs fp _, rfl, ?_, ?_⟩
    · intro e he he0
      have het : md.etag.getD "" = e := by rw [he]; rfl
      rw [het, if_pos he0]
      by_cases hlm : md.last_modified.getD "" ≠ ""
      · rw [if_pos hlm]
        simp [alookup_cons]
      · rw [if_neg hlm]
        simp [alookup_cons]
    · intro lm hl hl0
      have hlm2 : md.last_modified.getD "" = lm := by rw [hl]; rfl
      rw [hlm2, if_pos hl0]
      by_cases het : md.etag.getD "" ≠ ""
      · rw [if_pos het]
        simp [alookup_cons]
      · rw [if_neg het]
        simp [alookup_cons]
  · rfl

/-- C9, witness: the amended theorem applied to the scenario record itself
(absent file, size 1024, etag `abc123`). -/
theorem create_dummy_files_synthesis_witness :
    (∃ f, alookup (createDummyFile [] firefoxScenarioMd) "/tmp/x/firefox.pkg" =
        some f ∧ f.size = 1024 ∧
      (∀ e, firefoxScenarioMd.etag = some e → e ≠ "" →
        alookup f.xattrs "com.github.autopkg.etag" = some e) ∧
      (∀ lm, firefoxScenarioMd.last_modified = some lm → lm ≠ "" →
        alookup f.xattrs "com.github.autopkg.last-modified" = some lm)) ∧
    create_dummy_files ["Firefox.pkg"] firefoxScenarioCache [] =
      [("/tmp/x/firefox.pkg",
        { size := 1024, xattrs := [("com.github.autopkg.etag", "abc123")] })] :=
  create_dummy_files_synthesis [] firefoxScenarioMd "/tmp/x/firefox.pkg" 1024
    rfl (by decide) rfl (by decide) rfl

end CloudAutopkgRunner
